import Mathlib

/-!
Shallow embedding of the ridenow document-validation pipeline
(src/cap1.py, src/cap2.py, src/main.py).

Strings are modelled as `List Char`.  Python character classes are modelled
over their ASCII meaning (`\d` is `'0'-'9'`, `\s` is the six ASCII whitespace
characters, `str.upper` maps `'a'-'z'` to `'A'-'Z'`); the identifiers the
pipeline handles are ASCII.

Effectful library calls (PyMuPDF text extraction, EasyOCR, sqlite3) are
modelled by oracle values: an `Except PyErr x` records whether the call
raised a Python exception or returned a result.  Python control flow
(`try`/`except`) is translated to explicit matches on those values.
-/

/-- ASCII digit, the meaning of the regex class \d (codes 48-57). -/
def isDigit (c : Char) : Bool := decide (48 ≤ c.toNat ∧ c.toNat ≤ 57)

/-- ASCII uppercase letter, the meaning of the regex class [A-Z] (codes 65-90). -/
def isUpperLetter (c : Char) : Bool := decide (65 ≤ c.toNat ∧ c.toNat ≤ 90)

/-- ASCII whitespace as matched by Python's \s and stripped by str.strip():
space, tab, newline, carriage return, vertical tab, form feed. -/
def isPySpace (c : Char) : Bool :=
  decide (c.toNat = 32 ∨ c.toNat = 9 ∨ c.toNat = 10 ∨ c.toNat = 13 ∨ c.toNat = 11 ∨ c.toNat = 12)

/-- The regex character class [\s-] used as separator in both pipelines. -/
def isSep (c : Char) : Bool := isPySpace c || decide (c.toNat = 45)

/-- ASCII str.upper on one character: 'a'-'z' maps to 'A'-'Z', all else fixed. -/
def pyUpper (c : Char) : Char :=
  if 97 ≤ c.toNat ∧ c.toNat ≤ 122 then Char.ofNat (c.toNat - 32) else c

/-- str.strip(): drop leading and trailing whitespace. -/
def pyStrip (s : List Char) : List Char :=
  ((s.dropWhile isPySpace).reverse.dropWhile isPySpace).reverse

/-- src/cap2.py clean_extracted_text, per character: the function uppercases the
whole text and then runs the single-character replacements O to 0, I to 1,
vertical bar to 1, S to 5, B to 8.  Each replacement is a character-wise map
and none of the produced digits is an input of a later replacement, so the
sequential replaces equal one pass of this substitution after uppercasing. -/
def substMisread (c : Char) : Char :=
  if c = 'O' then '0'
  else if c = 'I' then '1'
  else if c = '|' then '1'
  else if c = 'S' then '5'
  else if c = 'B' then '8'
  else c

/-- One character of clean_extracted_text: uppercase, then fix misread chars. -/
def cleanChar (c : Char) : Char := substMisread (pyUpper c)

/-- src/cap2.py clean_extracted_text (lines 16-24). -/
def clean_extracted_text (t : List Char) : List Char := t.map cleanChar

/-- src/cap2.py normalize_dl (lines 68-69): uppercase, then delete every
character of the class [-\s]. -/
def normalize_dl (dl : List Char) : List Char :=
  (dl.map pyUpper).filter (fun c => !(isSep c))

/-- The Aadhaar candidate normalization applied inside find_aadhaar
(src/cap1.py line 74): re.sub deletes every non-digit character. -/
def aadhaar_norm (m : List Char) : List Char := m.filter isDigit

/-- Consume exactly n characters of class p from the front, or fail. -/
def takeClass (p : Char → Bool) : Nat → List Char → Option (List Char × List Char)
  | 0, s => some ([], s)
  | _ + 1, [] => none
  | n + 1, c :: rest =>
    if p c then
      match takeClass p n rest with
      | some (m, r) => some (c :: m, r)
      | none => none
    else none

/-- Consume one optional [\s-] separator (greedily, as the regex engine does). -/
def takeOptSep : List Char → List Char × List Char
  | [] => ([], [])
  | c :: rest => if isSep c then ([c], rest) else ([], c :: rest)

/-- Match of the Aadhaar regex (?:\d{4}[\s-]?){2}\d{4} anchored at the front of
s (src/cap1.py line 71).  The greedy optional separator never needs
backtracking: if a separator is present, the alternative of skipping it makes
the following \d fail at that separator, so the anchored match is this
deterministic scan. -/
def matchAadhaarAt (s : List Char) : Option (List Char × List Char) :=
  match takeClass isDigit 4 s with
  | none => none
  | some (d1, s1) =>
    match takeOptSep s1 with
    | (p1, s2) =>
      match takeClass isDigit 4 s2 with
      | none => none
      | some (d2, s3) =>
        match takeOptSep s3 with
        | (p2, s4) =>
          match takeClass isDigit 4 s4 with
          | none => none
          | some (d3, s5) => some (d1 ++ p1 ++ d2 ++ p2 ++ d3, s5)

/-- Match of DL_REGEX = [A-Z]{2}\d{2}[-\s]?\d{11} anchored at the front of s
(src/cap2.py line 13).  As for the Aadhaar regex, the greedy optional
separator never needs backtracking. -/
def matchDLAt (s : List Char) : Option (List Char × List Char) :=
  match takeClass isUpperLetter 2 s with
  | none => none
  | some (u, s1) =>
    match takeClass isDigit 2 s1 with
    | none => none
    | some (d2, s2) =>
      match takeOptSep s2 with
      | (p, s3) =>
        match takeClass isDigit 11 s3 with
        | none => none
        | some (d11, s4) => some (u ++ d2 ++ p ++ d11, s4)

/-- re.findall: scan left to right; at each position try the anchored matcher;
on success record the match and continue after it, else advance one character.
Structural fuel makes the definition kernel-computable; fuel equal to the
length of the text suffices because every successful match consumes at least
one character (see findallAux_fuel_eq below). -/
def findallAux (matcher : List Char → Option (List Char × List Char)) :
    Nat → List Char → List (List Char)
  | 0, _ => []
  | _ + 1, [] => []
  | fuel + 1, c :: rest =>
    match matcher (c :: rest) with
    | some (m, r) => m :: findallAux matcher fuel r
    | none => findallAux matcher fuel rest

/-- re.findall of the Aadhaar regex over a text. -/
def findallAadhaar (s : List Char) : List (List Char) :=
  findallAux matchAadhaarAt s.length s

/-- re.findall of DL_REGEX over a text. -/
def findallDL (s : List Char) : List (List Char) :=
  findallAux matchDLAt s.length s

/-- src/cap1.py find_aadhaar loop (lines 72-76): for each regex match, delete
non-digits; keep the result when it has 12 digits and is not already kept. -/
def findAadhaarAux : List (List Char) → List (List Char) → List (List Char)
  | clean, [] => clean
  | clean, m :: ms =>
    let digits := aadhaar_norm m
    if digits.length = 12 ∧ digits ∉ clean then findAadhaarAux (clean ++ [digits]) ms
    else findAadhaarAux clean ms

/-- src/cap1.py find_aadhaar (lines 70-77). -/
def find_aadhaar (text : List Char) : List (List Char) :=
  findAadhaarAux [] (findallAadhaar text)

/-- Deduplication keeping first occurrences.  Models Python's list(set(xs))
(src/cap2.py line 107); the iteration order of a Python set is unspecified,
this embedding fixes the first-occurrence order. -/
def dedupAux : List (List Char) → List (List Char) → List (List Char)
  | acc, [] => acc
  | acc, m :: ms => if m ∈ acc then dedupAux acc ms else dedupAux (acc ++ [m]) ms

/-- list(set(xs)) with first-occurrence order. -/
def dedupKeepFirst (l : List (List Char)) : List (List Char) := dedupAux [] l

/-- src/cap2.py lines 105-108: clean the whole raw text, findall DL_REGEX on
the cleaned text, deduplicate, then strip each candidate. -/
def dl_matches (raw : List Char) : List (List Char) :=
  (dedupKeepFirst (findallDL (clean_extracted_text raw))).map pyStrip

/-- A Python exception value.  check_dl_in_db catches only
sqlite3.OperationalError, which the first constructor distinguishes. -/
inductive PyErr where
  | operational (msg : List Char)
  | typeError (msg : List Char)
  | other (msg : List Char)
deriving DecidableEq

/-- str(e) of an exception. -/
def PyErr.msg : PyErr → List Char
  | .operational m => m
  | .typeError m => m
  | .other m => m

/-- Oracle for the effectful library calls made during one validation:
the outcome of direct PyMuPDF text extraction, of constructing
easyocr.Reader, of the OCR page loop, and of reading the reference table. -/
structure ExtWorld where
  direct : Except PyErr (List Char)
  readerInit : Except PyErr Unit
  ocrRead : Except PyErr (List Char)
  dbRows : Except PyErr (List (List Char))

/-- src/cap2.py extract_direct_text (lines 27-37): any exception is caught
and the empty string returned. -/
def extract_direct_text (d : Except PyErr (List Char)) : List Char :=
  match d with
  | .ok t => t
  | .error _ => []

/-- src/cap1.py lines 38-67 and src/cap2.py lines 40-65,
extract_text_with_easyocr: the easyocr.Reader construction happens before the
try block, so its exception propagates; the page loop is inside the try block
and any exception there yields the empty string. -/
def extract_text_with_easyocr (readerInit : Except PyErr Unit)
    (ocrRead : Except PyErr (List Char)) : Except PyErr (List Char) :=
  match readerInit with
  | .error e => .error e
  | .ok _ =>
    match ocrRead with
    | .ok t => .ok t
    | .error _ => .ok []

/-- Rows of the aadhaars table created by create_dummy_db (src/cap1.py line 21). -/
def aadhaar_rows : List (List Char) :=
  ["570453971532".toList, "809471964847".toList, "541309514471".toList]

/-- Rows of the dl_records table (src/cap2.py lines 129-130, src/main.py lines 71-72). -/
def dl_rows : List (List Char) :=
  ["CG10 20220007048".toList, "GJ15 20230009655".toList]

/-- src/cap1.py check_in_db (lines 80-86): exact equality lookup
(SELECT ... WHERE aadhaar = ?); it has no try block, so a database
exception propagates. -/
def check_in_db (dbRows : Except PyErr (List (List Char))) (a : List Char) :
    Except PyErr Bool :=
  match dbRows with
  | .error e => .error e
  | .ok rows => .ok (rows.contains a)

/-- src/cap2.py check_dl_in_db (lines 72-85): compare normalize_dl of every
stored row with normalize_dl of the candidate; sqlite3.OperationalError is
caught and yields False, any other exception propagates. -/
def check_dl_in_db (dbRows : Except PyErr (List (List Char))) (dl : List Char) :
    Except PyErr Bool :=
  match dbRows with
  | .error (.operational _) => .ok false
  | .error e => .error e
  | .ok rows => .ok (rows.any (fun r => normalize_dl r == normalize_dl dl))

/-- Message of src/cap1.py line 104. -/
def aadhaarNoTextMsg : List Char :=
  "Could not extract any text from the document.".toList

/-- Message of src/cap1.py line 120. -/
def aadhaarNoMatchMsg : List Char :=
  "No valid Aadhaar number could be found in the provided PDF.".toList

/-- Message of src/cap1.py line 115. -/
def aadhaarValidMsg (a : List Char) : List Char :=
  "Aadhaar card with number ".toList ++ a ++ " is valid and found in the database.".toList

/-- Message of src/cap1.py line 117. -/
def aadhaarNotFoundMsg (a : List Char) : List Char :=
  "Aadhaar card with number ".toList ++ a ++ " is not found in the database.".toList

/-- Message of src/cap1.py line 122. -/
def aadhaarErrorMsg (e : List Char) : List Char :=
  "An error occurred during validation: ".toList ++ e

/-- The ASCII single-quote character used in the DL messages. -/
def quoteChar : Char := Char.ofNat 39

/-- Message of src/cap2.py line 115. -/
def dlValidMsg (dl : List Char) : List Char :=
  "✅ Driving Licence ".toList ++ quoteChar :: dl ++
    quoteChar :: " is valid and found in the database.".toList

/-- Message of src/cap2.py line 117. -/
def dlNotFoundMsg (dl : List Char) : List Char :=
  "❌ Driving Licence ".toList ++ quoteChar :: dl ++
    quoteChar :: " is not in the database.".toList

/-- Message of src/cap2.py line 101. -/
def dlNoTextMsg : List Char :=
  "Failed to extract any text from the PDF. The file might be empty or unreadable.".toList

/-- Message of src/cap2.py line 121. -/
def dlNoMatchMsg : List Char :=
  "❌ No valid Driving Licence number found in the PDF.".toList

/-- "\n".join of the result lines. -/
def joinNl : List (List Char) → List Char
  | [] => []
  | [m] => m
  | m :: m2 :: ms => m ++ '\n' :: joinNl (m2 :: ms)

/-- The OCR-fallback condition of src/cap1.py line 95:
len(extracted_text.strip()) < 50. -/
def aadhaar_ocr_invoked (direct : List Char) : Bool :=
  decide ((pyStrip direct).length < 50)

/-- The OCR-fallback condition of src/cap2.py line 94:
not raw_text or len(raw_text.strip()) < 50. -/
def dl_ocr_invoked (direct : List Char) : Bool :=
  decide (direct = []) || decide ((pyStrip direct).length < 50)

/-- The text used downstream by the Aadhaar pipeline: OCR output when the
fallback fires, otherwise the directly extracted text. -/
def aadhaar_select (direct ocrText : List Char) : List Char :=
  if aadhaar_ocr_invoked direct then ocrText else direct

/-- The text used downstream by the DL pipeline. -/
def dl_select (direct ocrText : List Char) : List Char :=
  if dl_ocr_invoked direct then ocrText else direct

/-- src/cap1.py lines 111-117: DB check of one candidate and its message. -/
def aadhaar_report (dbRows : Except PyErr (List (List Char))) (a : List Char) :
    Except PyErr (List Char) :=
  match check_in_db dbRows a with
  | .ok true => .ok (aadhaarValidMsg a)
  | .ok false => .ok (aadhaarNotFoundMsg a)
  | .error e => .error e

/-- src/cap1.py lines 102-120: the processing of the extracted text.  Only
the first found candidate (aadhaars[0]) is checked and reported. -/
def aadhaar_postprocess (dbRows : Except PyErr (List (List Char))) (text : List Char) :
    Except PyErr (List Char) :=
  if text = [] then .ok aadhaarNoTextMsg
  else
    match find_aadhaar text with
    | [] => .ok aadhaarNoMatchMsg
    | a :: _ => aadhaar_report dbRows a

/-- The body of src/cap1.py validate_aadhaar_from_pdf inside its try block
(lines 90-120). -/
def validate_aadhaar_body (w : ExtWorld) : Except PyErr (List Char) :=
  match w.direct with
  | .error e => .error e
  | .ok d =>
    match (if aadhaar_ocr_invoked d then extract_text_with_easyocr w.readerInit w.ocrRead
           else .ok d) with
    | .error e => .error e
    | .ok text => aadhaar_postprocess w.dbRows text

/-- The except-Exception handler of src/cap1.py lines 121-122. -/
def aadhaar_handle : Except PyErr (List Char) → List Char
  | .ok s => s
  | .error e => aadhaarErrorMsg e.msg

/-- src/cap1.py validate_aadhaar_from_pdf (lines 89-122): the whole body is
inside try/except Exception, so the function always returns a string. -/
def validate_aadhaar_from_pdf (w : ExtWorld) : List Char :=
  aadhaar_handle (validate_aadhaar_body w)

/-- The per-candidate loop of src/cap2.py lines 111-117: each candidate is
checked in the DB and contributes one verdict line; an exception from the
check propagates. -/
def dl_loop (dbRows : Except PyErr (List (List Char))) :
    List (List Char) → Except PyErr (List (List Char))
  | [] => .ok []
  | dl :: rest =>
    match check_dl_in_db dbRows dl with
    | .error e => .error e
    | .ok b =>
      match dl_loop dbRows rest with
      | .error e => .error e
      | .ok vs => .ok ((if b then dlValidMsg dl else dlNotFoundMsg dl) :: vs)

/-- src/cap2.py lines 100-121: the processing of the extracted text. -/
def dl_postprocess (dbRows : Except PyErr (List (List Char))) (raw : List Char) :
    Except PyErr (List Char) :=
  if raw = [] ∨ pyStrip raw = [] then .ok dlNoTextMsg
  else
    match dl_matches raw with
    | [] => .ok dlNoMatchMsg
    | m :: ms =>
      match dl_loop dbRows (m :: ms) with
      | .error e => .error e
      | .ok vs => .ok (joinNl vs)

/-- src/cap2.py validate_dl_from_pdf (lines 88-121): there is no enclosing
try block, so an exception raised by the OCR call or by the DB check
propagates to the caller (an error result here). -/
def validate_dl_from_pdf (w : ExtWorld) : Except PyErr (List Char) :=
  let raw := extract_direct_text w.direct
  match (if dl_ocr_invoked raw then extract_text_with_easyocr w.readerInit w.ocrRead
         else .ok raw) with
  | .error e => .error e
  | .ok raw2 => dl_postprocess w.dbRows raw2

/-- An HTTP response of the FastAPI layer: status code and body detail. -/
inductive HttpResult where
  | resp (status : Nat) (body : List Char)
deriving DecidableEq

/-- The content type required by both endpoints. -/
def appPdfType : List Char := "application/pdf".toList

/-- Detail of the 400 response (src/main.py lines 44 and 64). -/
def invalidTypeDetail : List Char := "Invalid file type. Please upload a PDF.".toList

/-- Number of parameters of def validate_aadhaar_from_pdf(pdf_path)
(src/cap1.py line 89). -/
def arity_validate_aadhaar : Nat := 1

/-- Number of parameters of def validate_dl_from_pdf(pdf_path)
(src/cap2.py line 88). -/
def arity_validate_dl : Nat := 1

/-- str(e) of the TypeError Python raises when a function of one positional
parameter is called with two arguments. -/
def typeErrorArgMsg (fname : List Char) : List Char :=
  fname ++ "() takes 1 positional argument but 2 were given".toList

def fnameAadhaar : List Char := "validate_aadhaar_from_pdf".toList

def fnameDl : List Char := "validate_dl_from_pdf".toList

/-- Calling a Python function of the given parameter count with two positional
arguments (src/main.py lines 52 and 82 pass temp_file_path and ocr_reader):
Python raises TypeError before the body runs unless the arity is two. -/
def callWith2Args (arity : Nat) (fname : List Char)
    (run : Unit → Except PyErr (List Char)) : Except PyErr (List Char) :=
  if arity = 2 then run () else .error (.typeError (typeErrorArgMsg fname))

/-- src/main.py validate_aadhaar_endpoint (lines 41-59): 400 on wrong content
type, otherwise call validate_aadhaar_from_pdf with two arguments; the
endpoint's except Exception turns any exception into an HTTP 500 with str(e). -/
def validate_aadhaar_endpoint (contentType : List Char) (w : ExtWorld) : HttpResult :=
  if contentType ≠ appPdfType then .resp 400 invalidTypeDetail
  else
    match callWith2Args arity_validate_aadhaar fnameAadhaar
        (fun _ => .ok (validate_aadhaar_from_pdf w)) with
    | .ok m => .resp 200 m
    | .error e => .resp 500 e.msg

/-- src/main.py validate_dl_endpoint (lines 61-89). -/
def validate_dl_endpoint (contentType : List Char) (w : ExtWorld) : HttpResult :=
  if contentType ≠ appPdfType then .resp 400 invalidTypeDetail
  else
    match callWith2Args arity_validate_dl fnameDl (fun _ => validate_dl_from_pdf w) with
    | .ok m => .resp 200 m
    | .error e => .resp 500 e.msg

/-- d differs from r only in separator characters ([-\s]) and letter case:
separators may be inserted or deleted on either side, and corresponding
non-separator characters must agree up to the ASCII case map. -/
inductive SepCaseVariant : List Char → List Char → Prop where
  | nil : SepCaseVariant [] []
  | sepL (c : Char) (t u : List Char) : isSep c = true →
      SepCaseVariant t u → SepCaseVariant (c :: t) u
  | sepR (c : Char) (t u : List Char) : isSep c = true →
      SepCaseVariant t u → SepCaseVariant t (c :: u)
  | same (c d : Char) (t u : List Char) : pyUpper c = pyUpper d →
      SepCaseVariant t u → SepCaseVariant (c :: t) (d :: u)

/-- Modelled from the spec: the matcher order claimed by the spec sentence
(regex-match candidates from the raw text, then clean common misread
characters in the candidates, then deduplicate), for comparison with the
order the DL code actually uses. -/
def dl_candidates_specOrder (raw : List Char) : List (List Char) :=
  dedupKeepFirst ((findallDL raw).map clean_extracted_text)

/-! ### Character-level lemmas -/

theorem toNat_ofNat_of_valid (n : Nat) (h : n < 55296) : (Char.ofNat n).toNat = n := by
  rw [Char.ofNat, dif_pos (Or.inl h)]
  rfl

theorem char_toNat_inj {a b : Char} (h : a.toNat = b.toNat) : a = b :=
  Char.ext (UInt32.toNat.inj h)

theorem pyUpper_toNat (c : Char) :
    (pyUpper c).toNat = if 97 ≤ c.toNat ∧ c.toNat ≤ 122 then c.toNat - 32 else c.toNat := by
  unfold pyUpper
  split_ifs with h
  · exact toNat_ofNat_of_valid _ (by omega)
  · rfl

theorem pyUpper_idem (c : Char) : pyUpper (pyUpper c) = pyUpper c := by
  apply char_toNat_inj
  simp only [pyUpper_toNat]
  split_ifs <;> omega

theorem isSep_iff (c : Char) :
    isSep c = true ↔ (c.toNat = 32 ∨ c.toNat = 9 ∨ c.toNat = 10 ∨ c.toNat = 13 ∨
      c.toNat = 11 ∨ c.toNat = 12 ∨ c.toNat = 45) := by
  simp [isSep, isPySpace, or_assoc]

theorem isSep_pyUpper (c : Char) : isSep (pyUpper c) = isSep c := by
  rw [Bool.eq_iff_iff, isSep_iff, isSep_iff, pyUpper_toNat]
  split_ifs <;> omega

theorem isSep_eq_of_pyUpper_eq {c d : Char} (h : pyUpper c = pyUpper d) :
    isSep c = isSep d := by
  rw [← isSep_pyUpper c, ← isSep_pyUpper d, h]

theorem isPySpace_eq_false_of_isDigit {c : Char} (h : isDigit c = true) :
    isPySpace c = false := by
  simp only [isDigit, decide_eq_true_eq] at h
  simp only [isPySpace, decide_eq_false_iff_not]
  omega

theorem isPySpace_eq_false_of_isUpperLetter {c : Char} (h : isUpperLetter c = true) :
    isPySpace c = false := by
  simp only [isUpperLetter, decide_eq_true_eq] at h
  simp only [isPySpace, decide_eq_false_iff_not]
  omega

theorem isSep_eq_false_of_isDigit {c : Char} (h : isDigit c = true) :
    isSep c = false := by
  simp only [isDigit, decide_eq_true_eq] at h
  simp only [Bool.eq_false_iff, ne_eq, isSep_iff]
  omega

theorem isSep_eq_false_of_isUpperLetter {c : Char} (h : isUpperLetter c = true) :
    isSep c = false := by
  simp only [isUpperLetter, decide_eq_true_eq] at h
  simp only [Bool.eq_false_iff, ne_eq, isSep_iff]
  omega

/-! ### Normalization lemmas -/

theorem normalize_dl_cons (c : Char) (t : List Char) :
    normalize_dl (c :: t) =
      if isSep c then normalize_dl t else pyUpper c :: normalize_dl t := by
  simp only [normalize_dl, List.map_cons, List.filter_cons, isSep_pyUpper]
  cases h : isSep c <;> simp [h]

theorem normalize_dl_idem (s : List Char) :
    normalize_dl (normalize_dl s) = normalize_dl s := by
  induction s with
  | nil => rfl
  | cons c t ih =>
    rw [normalize_dl_cons]
    split_ifs with h
    · exact ih
    · rw [normalize_dl_cons, isSep_pyUpper, if_neg (by simp [h]), pyUpper_idem, ih]

theorem aadhaar_norm_idem (s : List Char) :
    aadhaar_norm (aadhaar_norm s) = aadhaar_norm s := by
  simp only [aadhaar_norm]
  induction s with
  | nil => rfl
  | cons c t ih =>
    by_cases h : isDigit c
    · simp [List.filter_cons, h, ih]
    · simp [List.filter_cons, h, ih]

/-! ### Separator and case variants -/

theorem sepCaseVariant_refl (l : List Char) : SepCaseVariant l l := by
  induction l with
  | nil => exact .nil
  | cons c t ih => exact .same c c t t rfl ih

theorem SepCaseVariant.normalize_eq {d r : List Char} (h : SepCaseVariant d r) :
    normalize_dl d = normalize_dl r := by
  induction h with
  | nil => rfl
  | sepL c t u hc _ ih => rw [normalize_dl_cons, if_pos hc, ih]
  | sepR c t u hc _ ih => rw [normalize_dl_cons, if_pos hc] at *; exact ih
  | same c e t u hce _ ih =>
    rw [normalize_dl_cons, normalize_dl_cons, isSep_eq_of_pyUpper_eq hce]
    split_ifs with hs
    · exact ih
    · rw [hce, ih]

/-! ### Matcher structure lemmas -/

theorem takeClass_spec (p : Char → Bool) :
    ∀ (n : Nat) (s m r : List Char), takeClass p n s = some (m, r) →
      m.length = n ∧ (∀ c ∈ m, p c = true) ∧ m ++ r = s := by
  intro n
  induction n with
  | zero =>
    intro s m r h
    simp only [takeClass, Option.some.injEq, Prod.mk.injEq] at h
    obtain ⟨hm, hr⟩ := h
    subst hm; subst hr
    simp
  | succ n ih =>
    intro s m r h
    cases s with
    | nil => simp [takeClass] at h
    | cons c rest =>
      simp only [takeClass] at h
      split_ifs at h with hp
      · cases htc : takeClass p n rest with
        | none => rw [htc] at h; simp at h
        | some pr =>
          obtain ⟨m', r'⟩ := pr
          rw [htc] at h
          simp only [Option.some.injEq, Prod.mk.injEq] at h
          obtain ⟨hm, hr⟩ := h
          subst hm; subst hr
          obtain ⟨h1, h2, h3⟩ := ih rest m' r' htc
          refine ⟨by simp [h1], ?_, by simp [h3]⟩
          intro x hx
          rcases List.mem_cons.mp hx with hx | hx
          · subst hx; exact hp
          · exact h2 x hx

theorem takeOptSep_spec (s p r : List Char) (h : takeOptSep s = (p, r)) :
    p ++ r = s ∧ (∀ c ∈ p, isSep c = true) := by
  cases s with
  | nil =>
    simp only [takeOptSep, Prod.mk.injEq] at h
    obtain ⟨hp, hr⟩ := h
    subst hp; subst hr
    simp
  | cons c rest =>
    simp only [takeOptSep] at h
    split_ifs at h with hc <;>
      (simp only [Prod.mk.injEq] at h; obtain ⟨hp, hr⟩ := h; subst hp; subst hr)
    · exact ⟨rfl, by simpa using hc⟩
    · simp

theorem matchAadhaarAt_spec (s m r : List Char) (h : matchAadhaarAt s = some (m, r)) :
    ∃ d1 p1 d2 p2 d3,
      m = d1 ++ p1 ++ d2 ++ p2 ++ d3 ∧
      d1.length = 4 ∧ (∀ c ∈ d1, isDigit c = true) ∧
      (∀ c ∈ p1, isSep c = true) ∧
      d2.length = 4 ∧ (∀ c ∈ d2, isDigit c = true) ∧
      (∀ c ∈ p2, isSep c = true) ∧
      d3.length = 4 ∧ (∀ c ∈ d3, isDigit c = true) ∧
      m ++ r = s := by
  unfold matchAadhaarAt at h
  cases h1 : takeClass isDigit 4 s with
  | none => rw [h1] at h; simp at h
  | some pr1 =>
    obtain ⟨d1, s1⟩ := pr1
    rw [h1] at h
    dsimp only at h
    cases h2 : takeOptSep s1 with
    | mk p1 s2 =>
      rw [h2] at h
      dsimp only at h
      cases h3 : takeClass isDigit 4 s2 with
      | none => rw [h3] at h; simp at h
      | some pr2 =>
        obtain ⟨d2, s3⟩ := pr2
        rw [h3] at h
        dsimp only at h
        cases h4 : takeOptSep s3 with
        | mk p2 s4 =>
          rw [h4] at h
          dsimp only at h
          cases h5 : takeClass isDigit 4 s4 with
          | none => rw [h5] at h; simp at h
          | some pr3 =>
            obtain ⟨d3, s5⟩ := pr3
            rw [h5] at h
            simp only [Option.some.injEq, Prod.mk.injEq] at h
            obtain ⟨hm, hr⟩ := h
            subst hm; subst hr
            obtain ⟨hl1, hd1, he1⟩ := takeClass_spec isDigit 4 s d1 s1 h1
            obtain ⟨he2, hp1⟩ := takeOptSep_spec s1 p1 s2 h2
            obtain ⟨hl2, hd2, he3⟩ := takeClass_spec isDigit 4 s2 d2 s3 h3
            obtain ⟨he4, hp2⟩ := takeOptSep_spec s3 p2 s4 h4
            obtain ⟨hl3, hd3, he5⟩ := takeClass_spec isDigit 4 s4 d3 s5 h5
            refine ⟨d1, p1, d2, p2, d3, rfl, hl1, hd1, hp1, hl2, hd2, hp2, hl3, hd3, ?_⟩
            rw [← he1, ← he2, ← he3, ← he4, ← he5]
            simp

theorem matchDLAt_spec (s m r : List Char) (h : matchDLAt s = some (m, r)) :
    ∃ u d2 p d11,
      m = u ++ d2 ++ p ++ d11 ∧
      u.length = 2 ∧ (∀ c ∈ u, isUpperLetter c = true) ∧
      d2.length = 2 ∧ (∀ c ∈ d2, isDigit c = true) ∧
      (∀ c ∈ p, isSep c = true) ∧
      d11.length = 11 ∧ (∀ c ∈ d11, isDigit c = true) ∧
      m ++ r = s := by
  unfold matchDLAt at h
  cases h1 : takeClass isUpperLetter 2 s with
  | none => rw [h1] at h; simp at h
  | some pr1 =>
    obtain ⟨u, s1⟩ := pr1
    rw [h1] at h
    dsimp only at h
    cases h2 : takeClass isDigit 2 s1 with
    | none => rw [h2] at h; simp at h
    | some pr2 =>
      obtain ⟨d2, s2⟩ := pr2
      rw [h2] at h
      dsimp only at h
      cases h3 : takeOptSep s2 with
      | mk p s3 =>
        rw [h3] at h
        dsimp only at h
        cases h4 : takeClass isDigit 11 s3 with
        | none => rw [h4] at h; simp at h
        | some pr3 =>
          obtain ⟨d11, s4⟩ := pr3
          rw [h4] at h
          simp only [Option.some.injEq, Prod.mk.injEq] at h
          obtain ⟨hm, hr⟩ := h
          subst hm; subst hr
          obtain ⟨hl1, hu, he1⟩ := takeClass_spec isUpperLetter 2 s u s1 h1
          obtain ⟨hl2, hd2, he2⟩ := takeClass_spec isDigit 2 s1 d2 s2 h2
          obtain ⟨he3, hp⟩ := takeOptSep_spec s2 p s3 h3
          obtain ⟨hl3, hd11, he4⟩ := takeClass_spec isDigit 11 s3 d11 s4 h4
          refine ⟨u, d2, p, d11, rfl, hl1, hu, hl2, hd2, hp, hl3, hd11, ?_⟩
          rw [← he1, ← he2, ← he3, ← he4]
          simp

theorem matchAadhaarAt_append (s m r : List Char) (h : matchAadhaarAt s = some (m, r)) :
    m ++ r = s ∧ m ≠ [] := by
  obtain ⟨d1, p1, d2, p2, d3, hm, hl1, -, -, -, -, -, -, -, happ⟩ := matchAadhaarAt_spec s m r h
  refine ⟨happ, ?_⟩
  subst hm
  intro hnil
  have hh := congrArg List.length hnil
  simp only [List.length_append, List.length_nil] at hh
  omega

theorem matchDLAt_append (s m r : List Char) (h : matchDLAt s = some (m, r)) :
    m ++ r = s ∧ m ≠ [] := by
  obtain ⟨u, d2, p, d11, hm, hl1, -, -, -, -, -, -, happ⟩ := matchDLAt_spec s m r h
  refine ⟨happ, ?_⟩
  subst hm
  intro hnil
  have hh := congrArg List.length hnil
  simp only [List.length_append, List.length_nil] at hh
  omega

/-! ### findall lemmas -/

theorem findallAux_forall {matcher : List Char → Option (List Char × List Char)}
    {P : List Char → Prop}
    (hm : ∀ s m r, matcher s = some (m, r) → P m) :
    ∀ (fuel : Nat) (s : List Char), ∀ m ∈ findallAux matcher fuel s, P m := by
  intro fuel
  induction fuel with
  | zero => intro s m hmem; simp [findallAux] at hmem
  | succ fuel ih =>
    intro s m hmem
    cases s with
    | nil => simp [findallAux] at hmem
    | cons c rest =>
      simp only [findallAux] at hmem
      cases hmatch : matcher (c :: rest) with
      | none => rw [hmatch] at hmem; exact ih rest m hmem
      | some pr =>
        obtain ⟨m0, r⟩ := pr
        rw [hmatch] at hmem
        rcases List.mem_cons.mp hmem with hmem | hmem
        · subst hmem; exact hm _ _ _ hmatch
        · exact ih r m hmem

theorem findallAux_chars {matcher : List Char → Option (List Char × List Char)}
    (hm : ∀ s m r, matcher s = some (m, r) → m ++ r = s) :
    ∀ (fuel : Nat) (s : List Char), ∀ m ∈ findallAux matcher fuel s, ∀ c ∈ m, c ∈ s := by
  intro fuel
  induction fuel with
  | zero => intro s m hmem; simp [findallAux] at hmem
  | succ fuel ih =>
    intro s m hmem
    cases s with
    | nil => simp [findallAux] at hmem
    | cons c rest =>
      simp only [findallAux] at hmem
      cases hmatch : matcher (c :: rest) with
      | none =>
        rw [hmatch] at hmem
        intro x hx
        exact List.mem_cons_of_mem c (ih rest m hmem x hx)
      | some pr =>
        obtain ⟨m0, r⟩ := pr
        rw [hmatch] at hmem
        have happ := hm _ _ _ hmatch
        rcases List.mem_cons.mp hmem with hmem | hmem
        · subst hmem
          intro x hx
          rw [← happ]
          exact List.mem_append_left r hx
        · intro x hx
          rw [← happ]
          exact List.mem_append_right m0 (ih r m hmem x hx)

/-- Any fuel of at least the length of the text computes the same match list,
because every successful match consumes at least one character.  In
particular the fuel s.length used by findallAadhaar and findallDL is enough. -/
theorem findallAux_fuel_eq {matcher : List Char → Option (List Char × List Char)}
    (hm : ∀ s m r, matcher s = some (m, r) → m ++ r = s ∧ m ≠ []) :
    ∀ (fuel₁ fuel₂ : Nat) (s : List Char), s.length ≤ fuel₁ → s.length ≤ fuel₂ →
      findallAux matcher fuel₁ s = findallAux matcher fuel₂ s := by
  intro fuel₁
  induction fuel₁ with
  | zero =>
    intro fuel₂ s h1 h2
    have : s = [] := List.length_eq_zero.mp (by omega)
    subst this
    cases fuel₂ <;> rfl
  | succ fuel₁ ih =>
    intro fuel₂ s h1 h2
    cases s with
    | nil => cases fuel₂ <;> rfl
    | cons c rest =>
      cases fuel₂ with
      | zero => simp at h2
      | succ fuel₂ =>
        simp only [findallAux]
        cases hmatch : matcher (c :: rest) with
        | none =>
          dsimp only
          have hr : rest.length ≤ fuel₁ := by
            simp only [List.length_cons] at h1; omega
          have h2' : rest.length ≤ fuel₂ := by
            simp only [List.length_cons] at h2; omega
          rw [ih fuel₂ rest hr h2']
        | some pr =>
          obtain ⟨m0, r⟩ := pr
          dsimp only
          obtain ⟨happ, hne⟩ := hm _ _ _ hmatch
          have hm0 : 1 ≤ m0.length := by
            cases m0 with
            | nil => exact absurd rfl hne
            | cons _ _ => simp
          have hlen : r.length + 1 ≤ rest.length + 1 := by
            have := congrArg List.length happ
            simp only [List.length_append, List.length_cons] at this
            omega
          have hl1 : r.length ≤ fuel₁ := by
            simp only [List.length_cons] at h1; omega
          have hl2 : r.length ≤ fuel₂ := by
            simp only [List.length_cons] at h2; omega
          rw [ih fuel₂ r hl1 hl2]

theorem findallAadhaar_mem_spec (text m : List Char) (hmem : m ∈ findallAadhaar text) :
    ∃ d1 p1 d2 p2 d3,
      m = d1 ++ p1 ++ d2 ++ p2 ++ d3 ∧
      d1.length = 4 ∧ (∀ c ∈ d1, isDigit c = true) ∧
      (∀ c ∈ p1, isSep c = true) ∧
      d2.length = 4 ∧ (∀ c ∈ d2, isDigit c = true) ∧
      (∀ c ∈ p2, isSep c = true) ∧
      d3.length = 4 ∧ (∀ c ∈ d3, isDigit c = true) := by
  refine @findallAux_forall matchAadhaarAt
    (fun m => ∃ d1 p1 d2 p2 d3,
      m = d1 ++ p1 ++ d2 ++ p2 ++ d3 ∧
      d1.length = 4 ∧ (∀ c ∈ d1, isDigit c = true) ∧
      (∀ c ∈ p1, isSep c = true) ∧
      d2.length = 4 ∧ (∀ c ∈ d2, isDigit c = true) ∧
      (∀ c ∈ p2, isSep c = true) ∧
      d3.length = 4 ∧ (∀ c ∈ d3, isDigit c = true)) ?_ text.length text m hmem
  intro s m' r h
  obtain ⟨d1, p1, d2, p2, d3, hm', rest⟩ := matchAadhaarAt_spec s m' r h
  exact ⟨d1, p1, d2, p2, d3, hm', rest.1, rest.2.1, rest.2.2.1, rest.2.2.2.1,
    rest.2.2.2.2.1, rest.2.2.2.2.2.1, rest.2.2.2.2.2.2.1, rest.2.2.2.2.2.2.2.1⟩

theorem findallDL_mem_spec (text m : List Char) (hmem : m ∈ findallDL text) :
    ∃ u d2 p d11,
      m = u ++ d2 ++ p ++ d11 ∧
      u.length = 2 ∧ (∀ c ∈ u, isUpperLetter c = true) ∧
      d2.length = 2 ∧ (∀ c ∈ d2, isDigit c = true) ∧
      (∀ c ∈ p, isSep c = true) ∧
      d11.length = 11 ∧ (∀ c ∈ d11, isDigit c = true) := by
  refine @findallAux_forall matchDLAt
    (fun m => ∃ u d2 p d11,
      m = u ++ d2 ++ p ++ d11 ∧
      u.length = 2 ∧ (∀ c ∈ u, isUpperLetter c = true) ∧
      d2.length = 2 ∧ (∀ c ∈ d2, isDigit c = true) ∧
      (∀ c ∈ p, isSep c = true) ∧
      d11.length = 11 ∧ (∀ c ∈ d11, isDigit c = true)) ?_ text.length text m hmem
  intro s m' r h
  obtain ⟨u, d2, p, d11, hm', rest⟩ := matchDLAt_spec s m' r h
  exact ⟨u, d2, p, d11, hm', rest.1, rest.2.1, rest.2.2.1, rest.2.2.2.1,
    rest.2.2.2.2.1, rest.2.2.2.2.2.1, rest.2.2.2.2.2.2.1⟩

theorem findallDL_chars (text m : List Char) (hmem : m ∈ findallDL text) :
    ∀ c ∈ m, c ∈ text :=
  findallAux_chars (fun s m' r h => (matchDLAt_append s m' r h).1) text.length text m hmem

/-! ### Deduplication lemmas -/

theorem dedupAux_mem (l : List (List Char)) :
    ∀ (acc : List (List Char)) (a : List Char), a ∈ dedupAux acc l → a ∈ acc ∨ a ∈ l := by
  induction l with
  | nil => intro acc a h; exact Or.inl h
  | cons m ms ih =>
    intro acc a h
    simp only [dedupAux] at h
    split_ifs at h with hmem
    · rcases ih acc a h with h' | h'
      · exact Or.inl h'
      · exact Or.inr (List.mem_cons_of_mem m h')
    · rcases ih (acc ++ [m]) a h with h' | h'
      · rcases List.mem_append.mp h' with h'' | h''
        · exact Or.inl h''
        · simp at h''
          subst h''
          exact Or.inr (List.mem_cons_self _ _)
      · exact Or.inr (List.mem_cons_of_mem m h')

theorem dedupAux_nodup (l : List (List Char)) :
    ∀ acc : List (List Char), acc.Nodup → (dedupAux acc l).Nodup := by
  induction l with
  | nil => intro acc h; exact h
  | cons m ms ih =>
    intro acc hacc
    simp only [dedupAux]
    split_ifs with hmem
    · exact ih acc hacc
    · refine ih (acc ++ [m]) ?_
      rw [List.nodup_append]
      refine ⟨hacc, List.nodup_singleton m, ?_⟩
      intro a ha hb
      simp at hb
      subst hb
      exact hmem ha

theorem dedupKeepFirst_mem {l : List (List Char)} {a : List Char}
    (h : a ∈ dedupKeepFirst l) : a ∈ l := by
  rcases dedupAux_mem l [] a h with h' | h'
  · simp at h'
  · exact h'

theorem dedupKeepFirst_nodup (l : List (List Char)) : (dedupKeepFirst l).Nodup :=
  dedupAux_nodup l [] List.nodup_nil

/-! ### find_aadhaar loop lemmas -/

theorem findAadhaarAux_forall (l : List (List Char)) :
    ∀ acc : List (List Char),
      (∀ a ∈ acc, a.length = 12 ∧ (∀ c ∈ a, isDigit c = true)) →
      ∀ a ∈ findAadhaarAux acc l, a.length = 12 ∧ (∀ c ∈ a, isDigit c = true) := by
  induction l with
  | nil => intro acc hacc a ha; exact hacc a ha
  | cons m ms ih =>
    intro acc hacc a ha
    simp only [findAadhaarAux] at ha
    split_ifs at ha with hcond
    · refine ih (acc ++ [aadhaar_norm m]) ?_ a ha
      intro b hb
      rcases List.mem_append.mp hb with hb | hb
      · exact hacc b hb
      · simp at hb
        subst hb
        refine ⟨hcond.1, ?_⟩
        intro c hc
        exact List.of_mem_filter hc
    · exact ih acc hacc a ha

theorem findAadhaarAux_nodup (l : List (List Char)) :
    ∀ acc : List (List Char), acc.Nodup → (findAadhaarAux acc l).Nodup := by
  induction l with
  | nil => intro acc h; exact h
  | cons m ms ih =>
    intro acc hacc
    simp only [findAadhaarAux]
    split_ifs with hcond
    · refine ih (acc ++ [aadhaar_norm m]) ?_
      rw [List.nodup_append]
      refine ⟨hacc, List.nodup_singleton _, ?_⟩
      intro a ha hb
      simp at hb
      subst hb
      exact hcond.2 ha
    · exact ih acc hacc

/-- The find_aadhaar loop is filtering to the 12-digit normalized candidates
followed by first-occurrence deduplication. -/
theorem findAadhaarAux_eq_dedupAux (l : List (List Char)) :
    ∀ acc : List (List Char),
      findAadhaarAux acc l =
        dedupAux acc ((l.map aadhaar_norm).filter (fun d => decide (d.length = 12))) := by
  induction l with
  | nil => intro acc; rfl
  | cons m ms ih =>
    intro acc
    simp only [findAadhaarAux, List.map_cons, List.filter_cons]
    by_cases hlen : (aadhaar_norm m).length = 12
    · rw [if_pos (show decide ((aadhaar_norm m).length = 12) = true by simp [hlen])]
      by_cases hmem : aadhaar_norm m ∈ acc
      · rw [if_neg (show ¬((aadhaar_norm m).length = 12 ∧ ¬aadhaar_norm m ∈ acc) by
          simp [hmem])]
        simp only [dedupAux]
        rw [if_pos hmem]
        exact ih acc
      · rw [if_pos (show (aadhaar_norm m).length = 12 ∧ ¬aadhaar_norm m ∈ acc from
          ⟨hlen, hmem⟩)]
        simp only [dedupAux]
        rw [if_neg hmem]
        exact ih (acc ++ [aadhaar_norm m])
    · rw [if_neg (show ¬((aadhaar_norm m).length = 12 ∧ ¬aadhaar_norm m ∈ acc) by
        simp [hlen])]
      rw [if_neg (show ¬(decide ((aadhaar_norm m).length = 12) = true) by simp [hlen])]
      exact ih acc

/-! ### pyStrip lemmas -/

theorem mem_dropWhile {p : Char → Bool} {l : List Char} {c : Char}
    (h : c ∈ l.dropWhile p) : c ∈ l := by
  induction l with
  | nil => simp at h
  | cons a t ih =>
    rw [List.dropWhile_cons] at h
    split_ifs at h with ha
    · exact List.mem_cons_of_mem a (ih h)
    · exact h

theorem pyStrip_subset {l : List Char} {c : Char} (h : c ∈ pyStrip l) : c ∈ l := by
  unfold pyStrip at h
  rw [List.mem_reverse] at h
  have h1 := mem_dropWhile h
  rw [List.mem_reverse] at h1
  exact mem_dropWhile h1

theorem pyStrip_eq_self_of (l : List Char)
    (h1 : ∀ c, l.head? = some c → isPySpace c = false)
    (h2 : ∀ c, l.getLast? = some c → isPySpace c = false) :
    pyStrip l = l := by
  cases l with
  | nil => rfl
  | cons a t =>
    have ha : isPySpace a = false := h1 a rfl
    unfold pyStrip
    rw [List.dropWhile_cons, if_neg (by simp [ha])]
    cases hr : (a :: t).reverse with
    | nil => simp at hr
    | cons z rt =>
      have hz : (a :: t).getLast? = some z := by
        rw [← List.head?_reverse, hr]
        rfl
      have hz' := h2 z hz
      have hd : List.dropWhile isPySpace (z :: rt) = z :: rt := by
        rw [List.dropWhile_cons, if_neg (by simp [hz'])]
      rw [hd, ← hr, List.reverse_reverse]

theorem findallDL_pyStrip (text m : List Char) (hmem : m ∈ findallDL text) :
    pyStrip m = m := by
  obtain ⟨u, d2, p, d11, hm, hlu, hu, hld2, hd2, hp, hld11, hd11⟩ :=
    findallDL_mem_spec text m hmem
  apply pyStrip_eq_self_of
  · intro c hc
    subst hm
    cases u with
    | nil => simp at hlu
    | cons a u' =>
      have hac : a = c := by simpa using hc
      rw [← hac]
      exact isPySpace_eq_false_of_isUpperLetter (hu a (by simp))
  · intro c hc
    subst hm
    rcases List.eq_nil_or_concat' d11 with h11 | ⟨ds, z, hz⟩
    · subst h11; simp at hld11
    · subst hz
      have hlast : (u ++ d2 ++ p ++ (ds ++ [z])).getLast? = some z := by
        rw [show u ++ d2 ++ p ++ (ds ++ [z]) = (u ++ d2 ++ p ++ ds) ++ [z] by simp]
        exact List.getLast?_concat _
      rw [hlast] at hc
      cases hc
      exact isPySpace_eq_false_of_isDigit (hd11 c (by simp))

/-! ### cleanChar lemmas -/

theorem cleanChar_spec (c : Char) :
    cleanChar c ≠ 'O' ∧ cleanChar c ≠ 'I' ∧ cleanChar c ≠ '|' ∧
    cleanChar c ≠ 'S' ∧ cleanChar c ≠ 'B' ∧ pyUpper (cleanChar c) = cleanChar c := by
  unfold cleanChar substMisread
  split_ifs with h1 h2 h3 h4 h5
  · exact ⟨by decide, by decide, by decide, by decide, by decide, by decide⟩
  · exact ⟨by decide, by decide, by decide, by decide, by decide, by decide⟩
  · exact ⟨by decide, by decide, by decide, by decide, by decide, by decide⟩
  · exact ⟨by decide, by decide, by decide, by decide, by decide, by decide⟩
  · exact ⟨by decide, by decide, by decide, by decide, by decide, by decide⟩
  · exact ⟨h1, h2, h3, h4, h5, pyUpper_idem c⟩

/-! ### DB-check loop lemma -/

theorem dl_loop_ok (dbRows : Except PyErr (List (List Char))) (f : List Char → Bool)
    (hf : ∀ dl, check_dl_in_db dbRows dl = .ok (f dl)) :
    ∀ l, dl_loop dbRows l =
      .ok (l.map (fun dl => if f dl then dlValidMsg dl else dlNotFoundMsg dl)) := by
  intro l
  induction l with
  | nil => rfl
  | cons dl rest ih =>
    simp only [dl_loop]
    rw [hf dl, ih]
    rfl

/-! ### Map identity helper -/

theorem map_eq_self_of {l : List (List Char)} {f : List Char → List Char}
    (h : ∀ a ∈ l, f a = a) : l.map f = l := by
  induction l with
  | nil => rfl
  | cons a t ih =>
    rw [List.map_cons, h a (by simp), ih (fun b hb => h b (by simp [hb]))]

/-! ### Orchestrator-level helper lemmas -/

theorem dl_not_invoked {d : List Char} (h : dl_ocr_invoked d = false) :
    d ≠ [] ∧ pyStrip d ≠ [] := by
  simp only [dl_ocr_invoked, Bool.or_eq_false_iff, decide_eq_false_iff_not] at h
  obtain ⟨h1, h2⟩ := h
  refine ⟨h1, fun hnil => h2 ?_⟩
  rw [hnil]
  simp

theorem validate_aadhaar_eq_select (w : ExtWorld) (d o : List Char)
    (h1 : w.direct = .ok d) (h2 : w.readerInit = .ok ()) (h3 : w.ocrRead = .ok o) :
    validate_aadhaar_from_pdf w =
      aadhaar_handle (aadhaar_postprocess w.dbRows (aadhaar_select d o)) := by
  unfold validate_aadhaar_from_pdf validate_aadhaar_body aadhaar_select
  rw [h1]
  dsimp only
  by_cases hinv : aadhaar_ocr_invoked d = true
  · rw [if_pos hinv, if_pos hinv]
    unfold extract_text_with_easyocr
    rw [h2, h3]
  · rw [if_neg hinv, if_neg hinv]

theorem validate_dl_eq_select (w : ExtWorld) (d o : List Char)
    (h1 : extract_direct_text w.direct = d) (h2 : w.readerInit = .ok ())
    (h3 : w.ocrRead = .ok o) :
    validate_dl_from_pdf w = dl_postprocess w.dbRows (dl_select d o) := by
  unfold validate_dl_from_pdf dl_select
  rw [h1]
  dsimp only
  by_cases hinv : dl_ocr_invoked d = true
  · rw [if_pos hinv, if_pos hinv]
    unfold extract_text_with_easyocr
    rw [h2, h3]
  · rw [if_neg hinv, if_neg hinv]

theorem aadhaar_postprocess_ok_shape (dbRows : Except PyErr (List (List Char)))
    (text s : List Char) (h : aadhaar_postprocess dbRows text = .ok s) :
    s = aadhaarNoTextMsg ∨ s = aadhaarNoMatchMsg ∨
    ∃ a, s = aadhaarValidMsg a ∨ s = aadhaarNotFoundMsg a := by
  unfold aadhaar_postprocess at h
  split_ifs at h with htext
  · left
    exact (Except.ok.inj h).symm
  · cases hfind : find_aadhaar text with
    | nil =>
      rw [hfind] at h
      right; left
      exact (Except.ok.inj h).symm
    | cons a rest =>
      rw [hfind] at h
      dsimp only at h
      unfold aadhaar_report at h
      right; right
      refine ⟨a, ?_⟩
      cases hdb : check_in_db dbRows a with
      | error e => rw [hdb] at h; exact absurd h (by simp)
      | ok b =>
        rw [hdb] at h
        cases b with
        | true => dsimp only at h; left; exact (Except.ok.inj h).symm
        | false => dsimp only at h; right; exact (Except.ok.inj h).symm

theorem validate_aadhaar_body_ok (w : ExtWorld) (s : List Char)
    (h : validate_aadhaar_body w = .ok s) :
    ∃ text, aadhaar_postprocess w.dbRows text = .ok s := by
  unfold validate_aadhaar_body at h
  cases hdir : w.direct with
  | error e => rw [hdir] at h; exact absurd h (by simp)
  | ok d =>
    rw [hdir] at h
    dsimp only at h
    cases hob : (if aadhaar_ocr_invoked d = true
        then extract_text_with_easyocr w.readerInit w.ocrRead else Except.ok d) with
    | error e => rw [hob] at h; exact absurd h (by simp)
    | ok text =>
      rw [hob] at h
      exact ⟨text, h⟩

/-! ### Claim theorems -/

/-- C1: the validator declares an identifier valid only on an exact normalized
match with a stored reference record: check_in_db answers true only when the
candidate equals a stored aadhaar string character for character, and
check_dl_in_db answers true only when normalize_dl of the candidate equals
normalize_dl of some stored record. -/
theorem claim_C1 :
    (∀ (dbRows : Except PyErr (List (List Char))) (a : List Char),
      check_in_db dbRows a = .ok true → ∃ rows, dbRows = .ok rows ∧ a ∈ rows) ∧
    (∀ (dbRows : Except PyErr (List (List Char))) (d : List Char),
      check_dl_in_db dbRows d = .ok true →
        ∃ rows, dbRows = .ok rows ∧ ∃ r ∈ rows, normalize_dl r = normalize_dl d) := by
  constructor
  · intro dbRows a h
    cases dbRows with
    | error e => simp [check_in_db] at h
    | ok rows =>
      refine ⟨rows, rfl, ?_⟩
      simp only [check_in_db, Except.ok.injEq] at h
      simpa using h
  · intro dbRows d h
    cases dbRows with
    | error e =>
      cases e with
      | operational m => simp [check_dl_in_db] at h
      | typeError m => simp [check_dl_in_db] at h
      | other m => simp [check_dl_in_db] at h
    | ok rows =>
      refine ⟨rows, rfl, ?_⟩
      simp only [check_dl_in_db, Except.ok.injEq] at h
      rw [List.any_eq_true] at h
      obtain ⟨r, hr, hbeq⟩ := h
      exact ⟨r, hr, by simpa using hbeq⟩

theorem claim_C1_witness :
    (∃ rows, (Except.ok aadhaar_rows : Except PyErr (List (List Char))) = Except.ok rows ∧
      "570453971532".toList ∈ rows) ∧
    (∃ rows, (Except.ok dl_rows : Except PyErr (List (List Char))) = Except.ok rows ∧
      ∃ r ∈ rows, normalize_dl r = normalize_dl ("cg10 20220007048".toList)) :=
  ⟨claim_C1.1 (Except.ok aadhaar_rows) ("570453971532".toList) rfl,
   claim_C1.2 (Except.ok dl_rows) ("cg10 20220007048".toList) rfl⟩

/-- C2: the OCR fallback fires exactly when the stripped direct text is
shorter than 50 characters (for the DL pipeline also when direct extraction
returned the empty string); when it does not fire the direct text is
processed downstream, and when it fires the OCR output is processed
instead. -/
theorem claim_C2 : ∀ (d o : List Char) (w : ExtWorld),
    (aadhaar_ocr_invoked d = true ↔ (pyStrip d).length < 50) ∧
    (dl_ocr_invoked d = true ↔ (d = [] ∨ (pyStrip d).length < 50)) ∧
    (aadhaar_ocr_invoked d = false → aadhaar_select d o = d) ∧
    (aadhaar_ocr_invoked d = true → aadhaar_select d o = o) ∧
    (dl_ocr_invoked d = false → dl_select d o = d) ∧
    (dl_ocr_invoked d = true → dl_select d o = o) ∧
    (w.direct = .ok d → w.readerInit = .ok () → w.ocrRead = .ok o →
      validate_aadhaar_from_pdf w =
        aadhaar_handle (aadhaar_postprocess w.dbRows (aadhaar_select d o))) ∧
    (extract_direct_text w.direct = d → w.readerInit = .ok () → w.ocrRead = .ok o →
      validate_dl_from_pdf w = dl_postprocess w.dbRows (dl_select d o)) := by
  intro d o w
  refine ⟨?_, ?_, ?_, ?_, ?_, ?_, ?_, ?_⟩
  · simp [aadhaar_ocr_invoked]
  · simp [dl_ocr_invoked]
  · intro h; simp only [aadhaar_select, h, Bool.false_eq_true, if_false]
  · intro h; simp only [aadhaar_select, h, if_true]
  · intro h; simp only [dl_select, h, Bool.false_eq_true, if_false]
  · intro h; simp only [dl_select, h, if_true]
  · exact validate_aadhaar_eq_select w d o
  · exact validate_dl_eq_select w d o

theorem claim_C2_witness :
    aadhaar_select (List.replicate 60 'X') ("OCRTEXT".toList) = List.replicate 60 'X' ∧
    dl_select [] ("OCRTEXT".toList) = "OCRTEXT".toList ∧
    validate_aadhaar_from_pdf
        ⟨Except.ok (List.replicate 60 'X'), Except.ok (), Except.ok ("OCRTEXT".toList),
         Except.ok aadhaar_rows⟩ =
      aadhaar_handle (aadhaar_postprocess (Except.ok aadhaar_rows)
        (aadhaar_select (List.replicate 60 'X') ("OCRTEXT".toList))) :=
  ⟨(claim_C2 (List.replicate 60 'X') ("OCRTEXT".toList)
      ⟨Except.ok (List.replicate 60 'X'), Except.ok (), Except.ok ("OCRTEXT".toList),
       Except.ok aadhaar_rows⟩).2.2.1 (by decide),
   (claim_C2 [] ("OCRTEXT".toList)
      ⟨Except.ok [], Except.ok (), Except.ok ("OCRTEXT".toList),
       Except.ok aadhaar_rows⟩).2.2.2.2.2.1 (by decide),
   (claim_C2 (List.replicate 60 'X') ("OCRTEXT".toList)
      ⟨Except.ok (List.replicate 60 'X'), Except.ok (), Except.ok ("OCRTEXT".toList),
       Except.ok aadhaar_rows⟩).2.2.2.2.2.2.1 rfl rfl rfl⟩

/-- C3: normalization is idempotent: normalize_dl twice equals normalize_dl
once, and the Aadhaar normalization (deleting every non-digit) applied to an
already-normalized identifier yields the same string. -/
theorem claim_C3 : ∀ s : List Char,
    normalize_dl (normalize_dl s) = normalize_dl s ∧
    aadhaar_norm (aadhaar_norm s) = aadhaar_norm s :=
  fun s => ⟨normalize_dl_idem s, aadhaar_norm_idem s⟩

/-- C4: a string that differs from a stored DL record only in separator
characters (hyphens and whitespace) and letter case is accepted by
check_dl_in_db. -/
theorem claim_C4 : ∀ (rows : List (List Char)) (d r : List Char),
    r ∈ rows → SepCaseVariant d r → check_dl_in_db (.ok rows) d = .ok true := by
  intro rows d r hr hvar
  simp only [check_dl_in_db, Except.ok.injEq]
  rw [List.any_eq_true]
  refine ⟨r, hr, ?_⟩
  rw [SepCaseVariant.normalize_eq hvar]
  exact beq_self_eq_true _

theorem claim_C4_witness :
    check_dl_in_db (Except.ok dl_rows) ("cg10-20220007048".toList) = Except.ok true := by
  refine claim_C4 dl_rows ("cg10-20220007048".toList) ("CG10 20220007048".toList)
    (by decide) ?_
  show SepCaseVariant
    ['c', 'g', '1', '0', '-', '2', '0', '2', '2', '0', '0', '0', '7', '0', '4', '8']
    ['C', 'G', '1', '0', ' ', '2', '0', '2', '2', '0', '0', '0', '7', '0', '4', '8']
  refine .same 'c' 'C' _ _ (by decide) ?_
  refine .same 'g' 'G' _ _ (by decide) ?_
  refine .same '1' '1' _ _ rfl ?_
  refine .same '0' '0' _ _ rfl ?_
  refine .sepL '-' _ _ (by decide) ?_
  refine .sepR ' ' _ _ (by decide) ?_
  exact sepCaseVariant_refl _

/-- A text on which the code order (clean the whole text, then match) and the
spec order (match the raw text, then clean the candidates) disagree. -/
def cexText : List Char := "CGIO 20220007048".toList

/-- C5 counterexample: the matcher order the claim states (regex-match the
raw extracted text first, then clean the candidates, then deduplicate) does
not compute what the DL code computes: on cexText the code finds the
candidate CG10 20220007048 while the claimed order finds nothing. -/
theorem claim_C5_counterexample :
    dl_matches cexText ≠ dl_candidates_specOrder cexText := by decide

/-- C5 (amended): the Aadhaar matcher regex-matches the raw text, then
normalizes each candidate (deleting non-digits, keeping 12-digit results),
then deduplicates; the DL matcher first cleans common misread characters in
the whole extracted text, then regex-matches the cleaned text, then
deduplicates and strips the candidates. -/
theorem claim_C5 : ∀ text : List Char,
    find_aadhaar text =
      dedupKeepFirst (((findallAadhaar text).map aadhaar_norm).filter
        (fun d => decide (d.length = 12))) ∧
    dl_matches text =
      (dedupKeepFirst (findallDL (clean_extracted_text text))).map pyStrip :=
  fun text => ⟨findAadhaarAux_eq_dedupAux (findallAadhaar text) [], rfl⟩

/-- C7: every candidate returned by find_aadhaar is exactly 12 digits and the
returned list has no duplicates; every DL_REGEX match consists, once the
optional separator is removed, of 2 uppercase letters followed by 13 digits
(2 plus 11); and the deduplicated match list handed to the DB check has no
duplicates. -/
theorem claim_C7 : ∀ text : List Char,
    (∀ a ∈ find_aadhaar text, a.length = 12 ∧ (∀ c ∈ a, isDigit c = true)) ∧
    (find_aadhaar text).Nodup ∧
    (∀ m ∈ findallDL text, ∃ l1 l2 ds,
      m.filter (fun c => !(isSep c)) = l1 :: l2 :: ds ∧
      isUpperLetter l1 = true ∧ isUpperLetter l2 = true ∧
      ds.length = 13 ∧ (∀ c ∈ ds, isDigit c = true)) ∧
    (dl_matches text).Nodup := by
  intro text
  refine ⟨?_, ?_, ?_, ?_⟩
  · exact findAadhaarAux_forall (findallAadhaar text) [] (by simp)
  · exact findAadhaarAux_nodup (findallAadhaar text) [] List.nodup_nil
  · intro m hm
    obtain ⟨u, d2, p, d11, hmEq, hlu, hu, hld2, hd2, hp, hld11, hd11⟩ :=
      findallDL_mem_spec text m hm
    obtain ⟨l1, l2, hu2⟩ : ∃ l1 l2, u = [l1, l2] := by
      cases u with
      | nil => simp at hlu
      | cons x xs =>
        cases xs with
        | nil => simp at hlu
        | cons y ys =>
          cases ys with
          | nil => exact ⟨x, y, rfl⟩
          | cons z zs => simp at hlu
    subst hu2
    refine ⟨l1, l2, d2 ++ d11, ?_, hu l1 (by simp), hu l2 (by simp), ?_, ?_⟩
    · rw [hmEq]
      have hfu : ([l1, l2] : List Char).filter (fun c => !(isSep c)) = [l1, l2] := by
        rw [List.filter_eq_self]
        intro c hc
        simp [isSep_eq_false_of_isUpperLetter (hu c hc)]
      have hfd2 : d2.filter (fun c => !(isSep c)) = d2 := by
        rw [List.filter_eq_self]
        intro c hc
        simp [isSep_eq_false_of_isDigit (hd2 c hc)]
      have hfd11 : d11.filter (fun c => !(isSep c)) = d11 := by
        rw [List.filter_eq_self]
        intro c hc
        simp [isSep_eq_false_of_isDigit (hd11 c hc)]
      have hfp : p.filter (fun c => !(isSep c)) = [] := by
        rw [List.filter_eq_nil_iff]
        intro c hc
        simp [hp c hc]
      rw [List.filter_append, List.filter_append, List.filter_append,
        hfu, hfd2, hfp, hfd11]
      simp
    · rw [List.length_append, hld2, hld11]
    · intro c hc
      rcases List.mem_append.mp hc with hc | hc
      · exact hd2 c hc
      · exact hd11 c hc
  · unfold dl_matches
    rw [map_eq_self_of (fun m hm => findallDL_pyStrip _ m (dedupKeepFirst_mem hm))]
    exact dedupKeepFirst_nodup _

/-- A text that yields one Aadhaar candidate and one DL candidate. -/
def witText7 : List Char := "CG10 20220007048 and aadhaar 5704 5397 1532".toList

theorem claim_C7_witness :
    (("570453971532".toList).length = 12 ∧
      (∀ c ∈ "570453971532".toList, isDigit c = true)) ∧
    (∃ l1 l2 ds,
      ("CG10 20220007048".toList).filter (fun c => !(isSep c)) = l1 :: l2 :: ds ∧
      isUpperLetter l1 = true ∧ isUpperLetter l2 = true ∧
      ds.length = 13 ∧ (∀ c ∈ ds, isDigit c = true)) :=
  ⟨(claim_C7 witText7).1 ("570453971532".toList) (by decide),
   (claim_C7 witText7).2.2.1 ("CG10 20220007048".toList) (by decide)⟩

/-- C8: the cleaned text contains none of the characters O, I, vertical bar,
S, B and no lowercase ASCII letter (every character is fixed by the uppercase
map); consequently no candidate reported by the DL pipeline has any of the
letters O, I, S, B in its two-letter prefix. -/
theorem claim_C8 : ∀ text : List Char,
    (∀ c ∈ clean_extracted_text text,
      c ≠ 'O' ∧ c ≠ 'I' ∧ c ≠ '|' ∧ c ≠ 'S' ∧ c ≠ 'B' ∧ pyUpper c = c) ∧
    (∀ m ∈ dl_matches text, ∀ c ∈ m.take 2,
      c ≠ 'O' ∧ c ≠ 'I' ∧ c ≠ 'S' ∧ c ≠ 'B') := by
  intro text
  constructor
  · intro c hc
    obtain ⟨c0, hc0, rfl⟩ := List.mem_map.mp hc
    exact cleanChar_spec c0
  · intro m hm c hc
    have hc1 : c ∈ m := List.take_subset 2 m hc
    unfold dl_matches at hm
    obtain ⟨m0, hm0, rfl⟩ := List.mem_map.mp hm
    have hc2 : c ∈ m0 := pyStrip_subset hc1
    have hm0' : m0 ∈ findallDL (clean_extracted_text text) := dedupKeepFirst_mem hm0
    have hc3 : c ∈ clean_extracted_text text :=
      findallDL_chars (clean_extracted_text text) m0 hm0' c hc2
    obtain ⟨c0, hc0, rfl⟩ := List.mem_map.mp hc3
    obtain ⟨o1, o2, o3, o4, o5, o6⟩ := cleanChar_spec c0
    exact ⟨o1, o2, o4, o5⟩

/-- A text whose cleaning turns cg10 into CG10 and yields one DL candidate. -/
def witText8 : List Char := "cg10 20220007048 padding".toList

theorem claim_C8_witness :
    ('C' ≠ 'O' ∧ 'C' ≠ 'I' ∧ 'C' ≠ '|' ∧ 'C' ≠ 'S' ∧ 'C' ≠ 'B' ∧ pyUpper 'C' = 'C') ∧
    ('C' ≠ 'O' ∧ 'C' ≠ 'I' ∧ 'C' ≠ 'S' ∧ 'C' ≠ 'B') :=
  ⟨(claim_C8 witText8).1 'C' (by decide),
   (claim_C8 witText8).2 ("CG10 20220007048".toList) (by decide) 'C' (by decide)⟩

/-- C9: when several Aadhaar candidates are found, only the first one
(aadhaars[0]) is checked against the reference store and the message is
built from it alone; the DL pipeline instead checks every deduplicated
candidate and joins one verdict line per candidate. -/
theorem claim_C9 :
    (∀ (dbRows : Except PyErr (List (List Char))) (text a : List Char)
        (rest : List (List Char)),
      text ≠ [] → find_aadhaar text = a :: rest →
      aadhaar_postprocess dbRows text = aadhaar_report dbRows a) ∧
    (∀ (rows : List (List Char)) (raw : List Char),
      raw ≠ [] → pyStrip raw ≠ [] → dl_matches raw ≠ [] →
      dl_postprocess (.ok rows) raw =
        .ok (joinNl ((dl_matches raw).map (fun dl =>
          if rows.any (fun r => normalize_dl r == normalize_dl dl)
          then dlValidMsg dl else dlNotFoundMsg dl)))) := by
  constructor
  · intro dbRows text a rest htext hfind
    unfold aadhaar_postprocess
    rw [if_neg htext, hfind]
  · intro rows raw h1 h2 h3
    unfold dl_postprocess
    rw [if_neg (by simp [h1, h2])]
    cases hm : dl_matches raw with
    | nil => exact absurd hm h3
    | cons m ms =>
      dsimp only
      rw [dl_loop_ok (.ok rows)
        (fun dl => rows.any (fun r => normalize_dl r == normalize_dl dl))
        (fun dl => rfl) (m :: ms)]

/-- A text with two Aadhaar candidates. -/
def witText9a : List Char := "5704 5397 1532 and 8094 7196 4847".toList

/-- A text with two DL candidates. -/
def witText9d : List Char := "CG10 20220007048 and GJ15 20230009655 pad".toList

theorem claim_C9_witness :
    aadhaar_postprocess (Except.ok aadhaar_rows) witText9a =
      aadhaar_report (Except.ok aadhaar_rows) ("570453971532".toList) ∧
    dl_postprocess (Except.ok dl_rows) witText9d =
      Except.ok (joinNl ((dl_matches witText9d).map (fun dl =>
        if dl_rows.any (fun r => normalize_dl r == normalize_dl dl)
        then dlValidMsg dl else dlNotFoundMsg dl))) :=
  ⟨claim_C9.1 (Except.ok aadhaar_rows) witText9a ("570453971532".toList)
      ["809471964847".toList] (by decide) (by decide),
   claim_C9.2 dl_rows witText9d (by decide) (by decide) (by decide)⟩

/-- C6 (amended): validate_aadhaar_from_pdf recovers every failure inside its
try/except and always returns one of its message strings, never an exception;
validate_dl_from_pdf returns a message for each of the four enumerated
failure kinds (unreadable PDF, no extractable text, no pattern match,
reference store unavailable), but it has no enclosing try block, so an
exception raised outside the handled spots (such as OCR reader
initialization) propagates to its caller. -/
theorem claim_C6 :
    (∀ w : ExtWorld,
      validate_aadhaar_from_pdf w = aadhaarNoTextMsg ∨
      validate_aadhaar_from_pdf w = aadhaarNoMatchMsg ∨
      (∃ a, validate_aadhaar_from_pdf w = aadhaarValidMsg a ∨
            validate_aadhaar_from_pdf w = aadhaarNotFoundMsg a) ∨
      (∃ e, validate_aadhaar_from_pdf w = aadhaarErrorMsg e)) ∧
    (∀ (w : ExtWorld) (e e' : PyErr),
      w.direct = .error e → w.readerInit = .ok () → w.ocrRead = .error e' →
      validate_dl_from_pdf w = .ok dlNoTextMsg) ∧
    (∀ (w : ExtWorld) (d o : List Char),
      w.direct = .ok d → dl_ocr_invoked d = true → w.readerInit = .ok () →
      w.ocrRead = .ok o → pyStrip o = [] →
      validate_dl_from_pdf w = .ok dlNoTextMsg) ∧
    (∀ (w : ExtWorld) (d : List Char),
      w.direct = .ok d → dl_ocr_invoked d = false → dl_matches d = [] →
      validate_dl_from_pdf w = .ok dlNoMatchMsg) ∧
    (∀ (w : ExtWorld) (d emsg : List Char),
      w.direct = .ok d → dl_ocr_invoked d = false → dl_matches d ≠ [] →
      w.dbRows = .error (.operational emsg) →
      validate_dl_from_pdf w = .ok (joinNl ((dl_matches d).map dlNotFoundMsg))) := by
  refine ⟨?_, ?_, ?_, ?_, ?_⟩
  · intro w
    unfold validate_aadhaar_from_pdf
    cases hb : validate_aadhaar_body w with
    | error e => exact Or.inr (Or.inr (Or.inr ⟨e.msg, rfl⟩))
    | ok s =>
      obtain ⟨text, hpost⟩ := validate_aadhaar_body_ok w s hb
      have hshape := aadhaar_postprocess_ok_shape w.dbRows text s hpost
      dsimp only [aadhaar_handle]
      rcases hshape with h | h | ⟨a, h | h⟩
      · exact Or.inl h
      · exact Or.inr (Or.inl h)
      · exact Or.inr (Or.inr (Or.inl ⟨a, Or.inl h⟩))
      · exact Or.inr (Or.inr (Or.inl ⟨a, Or.inr h⟩))
  · intro w e e' h1 h2 h3
    unfold validate_dl_from_pdf extract_direct_text
    rw [h1]
    dsimp only
    rw [if_pos (by decide)]
    unfold extract_text_with_easyocr
    rw [h2, h3]
    rfl
  · intro w d o h1 hinv h2 h3 hstrip
    unfold validate_dl_from_pdf extract_direct_text
    rw [h1]
    dsimp only
    rw [if_pos hinv]
    unfold extract_text_with_easyocr
    rw [h2, h3]
    dsimp only
    unfold dl_postprocess
    rw [if_pos (Or.inr hstrip)]
  · intro w d h1 hinv hmatches
    unfold validate_dl_from_pdf extract_direct_text
    rw [h1]
    dsimp only
    rw [if_neg (by simp [hinv])]
    dsimp only
    unfold dl_postprocess
    obtain ⟨hd1, hd2⟩ := dl_not_invoked hinv
    rw [if_neg (by simp [hd1, hd2]), hmatches]
  · intro w d emsg h1 hinv h3 hdb
    unfold validate_dl_from_pdf extract_direct_text
    rw [h1]
    dsimp only
    rw [if_neg (by simp [hinv])]
    dsimp only
    unfold dl_postprocess
    obtain ⟨hd1, hd2⟩ := dl_not_invoked hinv
    rw [if_neg (by simp [hd1, hd2])]
    cases hdm : dl_matches d with
    | nil => exact absurd hdm h3
    | cons m ms =>
      dsimp only
      rw [hdb, dl_loop_ok (.error (.operational emsg)) (fun _ => false)
        (fun dl => rfl) (m :: ms)]
      rfl

/-- The world in which direct extraction yields the empty string and the OCR
reader initialization raises: validate_dl_from_pdf propagates the exception. -/
def cexWorld : ExtWorld :=
  ⟨Except.ok [],
   Except.error (.other ("easyocr reader initialization failed".toList)),
   Except.ok [], Except.ok []⟩

/-- C6 counterexample: the claim that neither validate function ever raises
is false: on cexWorld, validate_dl_from_pdf propagates the OCR reader
initialization exception instead of returning a message. -/
theorem claim_C6_counterexample :
    ¬ (∀ w : ExtWorld, ∃ s, validate_dl_from_pdf w = Except.ok s) := by
  intro h
  obtain ⟨s, hs⟩ := h cexWorld
  have hv : validate_dl_from_pdf cexWorld =
      Except.error (.other ("easyocr reader initialization failed".toList)) := rfl
  rw [hv] at hs
  exact Except.noConfusion hs

/-- A direct text long enough to skip OCR and containing one DL number. -/
def witText6 : List Char :=
  "Driving Licence Number CG10 20220007048 issued by authority office".toList

/-- The world for the reference-store-unavailable witness. -/
def witWorld6 : ExtWorld :=
  ⟨Except.ok witText6, Except.ok (), Except.ok [],
   Except.error (.operational ("no such table: dl_records".toList))⟩

theorem claim_C6_witness :
    validate_dl_from_pdf witWorld6 =
      Except.ok (joinNl ((dl_matches witText6).map dlNotFoundMsg)) :=
  claim_C6.2.2.2.2 witWorld6 witText6 ("no such table: dl_records".toList)
    rfl (by decide) (by decide) rfl

/-- C10: both endpoints pass a second argument (the pre-loaded OCR reader) to
the one-parameter validate functions, so each call raises TypeError before
the validation runs and every application/pdf request is answered with an
HTTP 500 carrying str(e) instead of a validation message. -/
theorem claim_C10 : ∀ (ct : List Char) (wa wd : ExtWorld), ct = appPdfType →
    validate_aadhaar_endpoint ct wa = .resp 500 (typeErrorArgMsg fnameAadhaar) ∧
    validate_dl_endpoint ct wd = .resp 500 (typeErrorArgMsg fnameDl) := by
  intro ct wa wd hct
  subst hct
  constructor
  · unfold validate_aadhaar_endpoint
    rw [if_neg (by simp)]
    rfl
  · unfold validate_dl_endpoint
    rw [if_neg (by simp)]
    rfl

/-- A world whose extraction and DB oracles all succeed trivially. -/
def trivWorld : ExtWorld :=
  ⟨Except.ok [], Except.ok (), Except.ok [], Except.ok []⟩

theorem claim_C10_witness :
    validate_aadhaar_endpoint appPdfType trivWorld =
      .resp 500 (typeErrorArgMsg fnameAadhaar) ∧
    validate_dl_endpoint appPdfType trivWorld =
      .resp 500 (typeErrorArgMsg fnameDl) :=
  claim_C10 appPdfType trivWorld trivWorld rfl
